import Mathlib

/-!
# Verification of the dir-wand template-copying engine

A shallow embedding, in Lean 4, of the core of the `dir_wand` Python package
(`utils.py`, `file.py`, `directory.py`, `template.py`, `main.py`), together
with theorems settling the frozen claims about its specification.

Modelling conventions:
* Python strings are Lean `String`s; scanning works over `String.data`.
* The regex `\{(\w+)\}` (resp. `\{([a-zA-Z0-9_]+)\}`) is modelled by an
  explicit left-to-right scanner over the character list, with word
  characters `[A-Za-z0-9_]`.
* Python's builtin `str.format(**kwargs)` is modelled for the fields this
  program can produce: literal text, `{{`/`}}` escapes, and simple
  replacement fields.  Fields carrying conversions (`!`), format specs
  (`:`) or attribute/item access — which the claims never exercise — are
  mapped to a dedicated error constructor.
* Exceptions are `Option PyErr` results (`none` = normal return); state
  (the swap counter, the destination filesystem) is threaded explicitly.
* The destination filesystem is an association list from path strings to
  written nodes; the source filesystem facts a `File`/`Directory` observes
  through the OS (`islink`, `readlink`, decodability, `readlines`,
  `access(X_OK)`, `stat().st_mode`, `listdir`) are carried as data on the
  source-tree entries, with symlink resolution recorded on the entry
  (resolution of relative link targets is the OS's job, not this
  program's).
-/

set_option autoImplicit false

namespace DirWand

/-- Word characters of the regexes `\{(\w+)\}` and `\{([a-zA-Z0-9_]+)\}`:
ASCII letters, digits and underscore. -/
def isWordChar (c : Char) : Bool :=
  (('a' ≤ c && c ≤ 'z') || ('A' ≤ c && c ≤ 'Z') || ('0' ≤ c && c ≤ '9') || c = '_')

/-- An ASCII digit. -/
def isDigitChar (c : Char) : Bool := '0' ≤ c && c ≤ '9'

/-- `s.endswith("/")`. -/
def endsWithSlash (s : String) : Bool := s.data.getLast? = some '/'

/-- Model of `re.findall(r"\{(\w+)\}", s)` on a character list: the list
of captured names of the non-overlapping matches of `{` + word-chars⁺ +
`}`, scanning left to right — mirrors the pattern used both in
`utils.swap_in_str` and in `File.get_placeholders`.  Implemented as a
single left-to-right pass: the state holds, reversed, the word characters
read since the most recent `{` that is still a viable match start
(`none` when no viable `{` is open).  A `}` closing a non-empty word run
emits a capture; a fresh `{` restarts the candidate; any other non-word
character discards it.  This is exactly the regex's scan: a match can
only start at a `{`, and between a viable `{` and the current position
there are only word characters, so no match can start there. -/
def findPHAux : Option (List Char) → List Char → List (List Char)
  | _, [] => []
  | none, c :: cs =>
    if c = '{' then findPHAux (some []) cs else findPHAux none cs
  | some buf, c :: cs =>
    if c = '}' then
      if buf = [] then findPHAux none cs
      else buf.reverse :: findPHAux none cs
    else if c = '{' then findPHAux (some []) cs
    else if isWordChar c then findPHAux (some (c :: buf)) cs
    else findPHAux none cs

/-- The matches of `re.findall(r"\{(\w+)\}", ·)` on a character list. -/
def findPH (l : List Char) : List (List Char) := findPHAux none l

/-- `re.findall(r"\{(\w+)\}", s)` on a `String`. -/
def findPlaceholders (s : String) : List String :=
  (findPH s.data).map (fun cs => String.mk cs)

/-- The Python exceptions this code can raise, distinguished by their
construction site and message payload. -/
inductive PyErr where
  /-- `utils.swap_in_str`: `ValueError(f"Missing swaps: {missing_swaps}")`. -/
  | missingSwaps (names : List String)
  /-- `File._make_copy_with_placeholders`:
  `ValueError(f"Missing placeholders: {missing}")`. -/
  | missingPlaceholders (names : List String)
  /-- `str.format`: `ValueError("Single '{' encountered in format string")`
  (or `"expected '}' before end of string"`). -/
  | formatSingleOpenBrace
  /-- `str.format`: `ValueError("Single '}' encountered in format string")`. -/
  | formatSingleCloseBrace
  /-- `str.format`: `IndexError` — an empty or all-digit field name is a
  positional reference, and no positional arguments are passed. -/
  | formatIndexError (field : List Char)
  /-- `str.format`: `KeyError(name)` — a keyword field absent from the
  mapping. -/
  | formatKeyError (name : String)
  /-- `str.format`: fields with conversions, format specs or
  attribute/item access; abstracted (never exercised by the claims). -/
  | formatFieldError (field : List Char)
  /-- `template.Template.parse_swaps`: `ValueError(f"Invalid swap value: {value}")`. -/
  | invalidSwapValue (value : String)
  /-- `template.Template.parse_swaps`: `"-" in None` raises `TypeError`. -/
  | typeErrorNoneNotIterable
  /-- `template.Template.parse_swaps`:
  `ValueError("All swaps must have the same number of elements")` (keys not named). -/
  | swapsLengthMismatch
  /-- `main.copies_main`: `ValueError("All swaps must have the same number of
  elements. Got: {length_dict}")` — payload names every key with its length. -/
  | inconsistentSwapLengths (lengths : List (String × Nat))
  /-- `start, end = value.split("-")` with a number of pieces other than two. -/
  | unpackError (value : String)
  /-- `int(s)` failing: `ValueError(f"invalid literal for int(): {s}")`. -/
  | invalidIntLiteral (s : String)
  /-- `list(self.swaps.values())[0]` on an empty dict: `IndexError`. -/
  | emptySwapsIndexError
  /-- `self.swaps[swap][i]` out of range: `IndexError("list index out of range")`. -/
  | listIndexError
  deriving DecidableEq, Repr

/-- One step of `str.format` field handling, given the field's characters
(everything between `{` and the first `}`) and the keyword mapping.
Mirrors CPython: an empty or all-digit field name is a positional
reference (an `IndexError` here, since `format(**swaps)` passes no
positional arguments); a plain identifier is looked up among the keyword
arguments (`KeyError` if absent); anything else (conversion, spec,
attribute access) is abstracted to `formatFieldError`. -/
def formatField (field : List Char) (lookup : String → Option String) :
    Except PyErr (List Char) :=
  if field = [] then .error (.formatIndexError field)
  else if field.all isDigitChar then .error (.formatIndexError field)
  else if field.all isWordChar then
    match lookup (String.mk field) with
    | some v => .ok v.data
    | none => .error (.formatKeyError (String.mk field))
  else .error (.formatFieldError field)

/-- The scanning state of `str.format`: literal text, just after a `{`,
inside a replacement field (accumulated reversed), or just after a `}`. -/
inductive FmtState where
  | lit
  | afterOpen
  | field (buf : List Char)
  | afterClose

/-- Model of Python `str.format(**kwargs)` over a character list, as a
single left-to-right pass: literal text is copied; `{{` and `}}` emit a
single brace; `{field}` is substituted via `formatField`; a `{` with no
matching `}` raises `ValueError` (unterminated field), as does a stray
`}`. -/
def pyFormatAux (lookup : String → Option String) :
    FmtState → List Char → Except PyErr (List Char)
  | .lit, [] => .ok []
  | .afterOpen, [] => .error .formatSingleOpenBrace
  | .field _, [] => .error .formatSingleOpenBrace
  | .afterClose, [] => .error .formatSingleCloseBrace
  | .lit, c :: cs =>
    if c = '{' then pyFormatAux lookup .afterOpen cs
    else if c = '}' then pyFormatAux lookup .afterClose cs
    else (pyFormatAux lookup .lit cs).map (fun t => c :: t)
  | .afterOpen, c :: cs =>
    if c = '{' then (pyFormatAux lookup .lit cs).map (fun t => '{' :: t)
    else if c = '}' then
      match formatField [] lookup with
      | .error e => .error e
      | .ok v => (pyFormatAux lookup .lit cs).map (fun t => v ++ t)
    else pyFormatAux lookup (.field [c]) cs
  | .field buf, c :: cs =>
    if c = '}' then
      match formatField buf.reverse lookup with
      | .error e => .error e
      | .ok v => (pyFormatAux lookup .lit cs).map (fun t => v ++ t)
    else pyFormatAux lookup (.field (c :: buf)) cs
  | .afterClose, c :: cs =>
    if c = '}' then (pyFormatAux lookup .lit cs).map (fun t => '}' :: t)
    else .error .formatSingleCloseBrace

/-- `str.format(**kwargs)` on a character list, from the literal state. -/
def pyFormat (l : List Char) (lookup : String → Option String) :
    Except PyErr (List Char) :=
  pyFormatAux lookup .lit l

/-- `str.format(**kwargs)` on a `String`. -/
def pyFormatStr (s : String) (lookup : String → Option String) :
    Except PyErr String :=
  (pyFormat s.data lookup).map (fun cs => String.mk cs)

/-- The process-wide `Logger().swap_counts` dictionary, as a total counter
function (absent keys read 0, matching `setdefault(swap, 0)`). -/
abbrev Counts := String → Nat

/-- Increment the counter of every name in the list once, in order
(modelling `for swap in swap_in_string: Logger().swap_counts[swap] += 1`
over the distinct names). -/
def bumpCounts (counts : Counts) (names : List String) : Counts :=
  names.foldl (fun c nm => fun k => if k = nm then c k + 1 else c k) counts

/-- Keyword lookup in a swaps mapping (Python `dict` of keyword
arguments; values already rendered with `str`, as `format` does). -/
def lookupSwap (swaps : List (String × String)) (n : String) : Option String :=
  swaps.lookup n

/-- Whether `n` is a key of the swaps mapping (`set(swaps.keys())`). -/
def isSwapKey (swaps : List (String × String)) (n : String) : Bool :=
  (swaps.map Prod.fst).contains n

/-- Model of `utils.swap_in_str(string, **swaps)`:

1. `swap_in_string = set(re.findall(r"\{(\w+)\}", string))` — the distinct
   placeholder names of the string;
2. every such name's swap counter is incremented (this happens first,
   unconditionally);
3. `missing_swaps = swap_in_string - set(swaps.keys())`; if non-empty,
   `ValueError(f"Missing swaps: {missing_swaps}")`;
4. otherwise the result of `string.format(**swaps)`.

Returns the updated counter together with the outcome. -/
def swapInStr (s : String) (swaps : List (String × String)) (counts : Counts) :
    Counts × Except PyErr String :=
  let found := (findPlaceholders s).dedup
  let counts' := bumpCounts counts found
  let missing := found.filter (fun n => ¬ isSwapKey swaps n)
  if missing ≠ [] then
    (counts', .error (.missingSwaps missing))
  else
    (counts', pyFormatStr s (lookupSwap swaps))

/-- `missing_swaps = swap_in_string - set(swaps.keys())` of
`utils.swap_in_str`, as a standalone definition. -/
def missingNames (s : String) (swaps : List (String × String)) : List String :=
  (findPlaceholders s).dedup.filter (fun n => ¬ isSwapKey swaps n)

/-! ## The `File` model (`file.py`)

A `PyFile` carries what `File.__init__` and the copy methods observe
through the OS about `self.path`: the basename, whether the path is a
symlink (`os.path.islink`) and its raw link target (`os.readlink`),
whether `open(path).read()` decodes (`is_text` — `open` follows
symlinks), the decoded lines (`readlines`, trailing newlines included),
the raw byte content (for `open(path, "rb")`), whether the path is
executable (`os.access(path, os.X_OK)`), and the source permission bits
(`os.stat(path).st_mode`). -/

structure PyFile where
  name : String
  isLink : Bool
  linkTarget : String
  isTextDecodable : Bool
  lines : List String
  raw : String
  isExec : Bool
  mode : Nat
  deriving DecidableEq, Repr

/-- The per-line body of `File.get_placeholders`: for each line (with its
index), `matches = pattern.findall(line)`; `findall` returns a list, never
`None`, so the source's `if matches is not None:` guard is always taken —
the line's index is recorded whether or not there was a match, and the
matched names are accumulated. -/
def getPlaceholdersLoop : Nat → List String → List Nat × List String
  | _, [] => ([], [])
  | index, line :: rest =>
    let ms := findPlaceholders line
    let (idxs, names) := getPlaceholdersLoop (index + 1) rest
    (index :: idxs, ms ++ names)

/-- `File.get_placeholders`: a no-op for non-text files; otherwise the
recorded `_place_holder_lines` and the accumulated `_placeholders`
(a Python `set`; modelled as the accumulation list, deduplicated where
set semantics matter). -/
def getPlaceholders (f : PyFile) : List Nat × List String :=
  if ¬ f.isTextDecodable then ([], [])
  else getPlaceholdersLoop 0 f.lines

/-- `self._place_holder_lines`. -/
def placeHolderLines (f : PyFile) : List Nat := (getPlaceholders f).1

/-- `self._placeholders`, as a deduplicated list (Python stores a set). -/
def placeholdersOf (f : PyFile) : List String := (getPlaceholders f).2.dedup

/-- `File.has_placeholders`: `len(self._placeholders) > 0`. -/
def hasPlaceholders (f : PyFile) : Bool := ¬ placeholdersOf f = []

/-- `missing = self._placeholders - set(swaps.keys())` of
`File._make_copy_with_placeholders`. -/
def missingPlaceholderNames (f : PyFile) (swaps : List (String × String)) :
    List String :=
  (placeholdersOf f).filter (fun n => ¬ isSwapKey swaps n)

/-! ## The destination filesystem -/

/-- A node written at a destination path. -/
inductive OutNode where
  | file (content : String) (mode : Nat)
  | dir
  | symlink (target : String)
  deriving DecidableEq, Repr

/-- The destination filesystem: an association list from path strings to
written nodes (first match wins). -/
abbrev DestFS := List (String × OutNode)

/-- Read the node at a path. -/
def lookupFS (fs : DestFS) (p : String) : Option OutNode :=
  List.lookup p fs

/-- Write (create or overwrite) the node at a path. -/
def setNode (fs : DestFS) (p : String) (n : OutNode) : DestFS :=
  (p, n) :: (fs : List (String × OutNode)).filter (fun e => ¬ e.1 = p)

/-- `os.stat(p).st_mode` on the destination filesystem (only ever applied
to a just-written file in this code). -/
def statMode (fs : DestFS) (p : String) : Nat :=
  match lookupFS fs p with
  | some (.file _ m) => m
  | _ => 0

/-- `os.chmod(p, m)` on the destination filesystem. -/
def chmodFS (fs : DestFS) (p : String) (m : Nat) : DestFS :=
  (fs : List (String × OutNode)).map
    (fun e => if e.1 = p then
        match e.2 with
        | .file c _ => (e.1, OutNode.file c m)
        | n => (e.1, n)
      else e)

/-! ## File copy operations (`file.py`)

Each operation takes the mode new files are created with by
`open(path, "w"/"wb")` under the process umask (`createMode`), threads
the swap counter and the destination filesystem, and returns
`none` for a normal return or `some e` for a raised exception; writes
made before a raise persist in the returned filesystem. -/

/-- The swap loop of `File._make_copy_with_placeholders`: for each
recorded index, `lines[index] = swap_in_str(lines[index], **swaps)`.
An exception propagates mid-loop (counter updates made so far persist). -/
def swapLinesLoop (swaps : List (String × String)) :
    List Nat → List String → Counts → Counts × Except PyErr (List String)
  | [], lines, counts => (counts, .ok lines)
  | index :: rest, lines, counts =>
    match swapInStr (lines.getD index "") swaps counts with
    | (c1, .error e) => (c1, .error e)
    | (c1, .ok line) => swapLinesLoop swaps rest (lines.set index line) c1

/-- `File._make_copy_with_placeholders(path, **swaps)`:
check `missing = self._placeholders - set(swaps.keys())` first (raising
`ValueError(f"Missing placeholders: {missing}")` before anything is
written); then rewrite the recorded lines with `swap_in_str`; then write
the new file (created with `createMode`); then
`os.chmod(path, os.stat(path).st_mode)` — note both arguments stat the
freshly written destination, not the source. -/
def makeCopyWithPlaceholders (createMode : Nat) (f : PyFile) (path : String)
    (swaps : List (String × String)) (counts : Counts) (fs : DestFS) :
    Counts × DestFS × Option PyErr :=
  let missing := missingPlaceholderNames f swaps
  if missing ≠ [] then
    (counts, fs, some (.missingPlaceholders missing))
  else
    match swapLinesLoop swaps (placeHolderLines f) f.lines counts with
    | (c1, .error e) => (c1, fs, some e)
    | (c1, .ok lines') =>
      let fs1 := setNode fs path (.file (String.join lines') createMode)
      let fs2 := chmodFS fs1 path (statMode fs1 path)
      (c1, fs2, none)

/-- `File._make_softlink_copy(path)`: `os.symlink(os.readlink(self.path), path)`. -/
def makeSoftlinkCopy (f : PyFile) (path : String) (fs : DestFS) : DestFS :=
  setNode fs path (.symlink f.linkTarget)

/-- `File._make_executable_copy(path)`: byte-for-byte copy, then
`os.chmod(path, os.stat(path).st_mode)` — again both stat the destination. -/
def makeExecutableCopy (createMode : Nat) (f : PyFile) (path : String)
    (fs : DestFS) : DestFS :=
  let fs1 := setNode fs path (.file f.raw createMode)
  chmodFS fs1 path (statMode fs1 path)

/-- `File._make_simple_copy(path)`: byte-for-byte copy. -/
def makeSimpleCopy (createMode : Nat) (f : PyFile) (path : String)
    (fs : DestFS) : DestFS :=
  setNode fs path (.file f.raw createMode)

/-- `File.make_copy_with_swaps(path, **swaps)`: append `"/"` if missing,
append the file's name, substitute placeholders in the resulting path,
then dispatch — placeholder-bearing files first (the source comments
that symlinks and executables "inherently" have no placeholders), then
symlinks, then executables, then a plain copy. -/
def fileMakeCopyWithSwaps (createMode : Nat) (f : PyFile) (destDir : String)
    (swaps : List (String × String)) (counts : Counts) (fs : DestFS) :
    Counts × DestFS × Option PyErr :=
  let path0 := (if endsWithSlash destDir then destDir else destDir ++ "/") ++ f.name
  match swapInStr path0 swaps counts with
  | (c1, .error e) => (c1, fs, some e)
  | (c1, .ok path) =>
    if hasPlaceholders f then
      makeCopyWithPlaceholders createMode f path swaps c1 fs
    else if f.isLink then
      (c1, makeSoftlinkCopy f path fs, none)
    else if f.isExec then
      (c1, makeExecutableCopy createMode f path fs, none)
    else
      (c1, makeSimpleCopy createMode f path fs, none)

/-! ## The source tree and `Directory` (`directory.py`)

`Directory.unpack_contents` asks the OS, for each name `os.listdir`
returns, whether `os.path.isdir` (which follows symlinks) and
`os.path.islink`/`os.path.isfile` (`isfile` also follows symlinks) hold.
A `SrcEntry` records, per listed name, what those observations are:
a regular file, a regular sub-directory, a symlink resolving to a file,
a symlink resolving to a directory (the resolved target's listing is
carried on the entry — resolving a relative link target is the OS's
job), or a symlink whose target does not exist. -/

/-- The observed data of a (possibly symlinked) regular file: every read
(`open`, `stat`, `access`) follows the link to the target. -/
structure FileData where
  isTextDecodable : Bool
  lines : List String
  raw : String
  isExec : Bool
  mode : Nat
  deriving DecidableEq, Repr

mutual

/-- One entry of a directory listing, with the OS observations attached. -/
inductive SrcEntry where
  | file (name : String) (dat : FileData)
  | dir (name : String) (entries : SrcListing)
  | linkFile (name : String) (target : String) (dat : FileData)
  | linkDir (name : String) (target : String) (entries : SrcListing)
  | broken (name : String) (target : String)

/-- A directory listing, in `os.listdir` order. -/
inductive SrcListing where
  | nil
  | cons (e : SrcEntry) (rest : SrcListing)

end

/-- `File(path)` for a listed file entry: the basename is the listed name;
`islink`/`readlink` report the link facts; all content reads follow the
link into the observed `FileData`. -/
def mkPyFile (name : String) (isLink : Bool) (target : String) (dat : FileData) :
    PyFile :=
  { name := name, isLink := isLink, linkTarget := target,
    isTextDecodable := dat.isTextDecodable, lines := dat.lines, raw := dat.raw,
    isExec := dat.isExec, mode := dat.mode }

mutual

/-- The unpacked directory tree: `Directory`'s `name`, `files` and
`children` after `unpack_contents`. -/
inductive PyDirectory where
  | mk (name : String) (files : List PyFile) (children : PyDirList)

/-- The `children` list of a `Directory`, in discovery order. -/
inductive PyDirList where
  | nil
  | cons (d : PyDirectory) (rest : PyDirList)

end

/-- `Directory.unpack_contents`: walk the listing in order; an entry for
which `os.path.isdir` holds (a directory, or a symlink resolving to one)
becomes a child `Directory` (unpacked recursively); else an entry for
which `os.path.isfile` holds (a file, or a symlink resolving to one)
becomes a `File`; anything else (a symlink with no target) is skipped. -/
def unpackEntries : SrcListing → List PyFile × PyDirList
  | .nil => ([], PyDirList.nil)
  | .cons e rest =>
    let (fls, ds) := unpackEntries rest
    match e with
    | .file n dat => (mkPyFile n false "" dat :: fls, ds)
    | .dir n es =>
      let (fls2, ds2) := unpackEntries es
      (fls, PyDirList.cons (PyDirectory.mk n fls2 ds2) ds)
    | .linkFile n t dat => (mkPyFile n true t dat :: fls, ds)
    | .linkDir n _ es =>
      let (fls2, ds2) := unpackEntries es
      (fls, PyDirList.cons (PyDirectory.mk n fls2 ds2) ds)
    | .broken _ _ => (fls, ds)

/-- A `Directory` whose path has basename `name`, freshly unpacked from
the listing `es`. -/
def unpackDir (name : String) (es : SrcListing) : PyDirectory :=
  let (fls, ds) := unpackEntries es
  PyDirectory.mk name fls ds

/-- `for file in self.files: file.make_copy_with_swaps(path, **swaps)`:
copy each file child in order, stopping at the first raised exception
(writes already made persist). -/
def copyFilesLoop (createMode : Nat) :
    List PyFile → String → List (String × String) → Counts → DestFS →
      Counts × DestFS × Option PyErr
  | [], _, _, counts, fs => (counts, fs, none)
  | f :: rest, path, swaps, counts, fs =>
    match fileMakeCopyWithSwaps createMode f path swaps counts fs with
    | (c1, fs1, some e) => (c1, fs1, some e)
    | (c1, fs1, none) => copyFilesLoop createMode rest path swaps c1 fs1

mutual

/-- `Directory.make_copy_with_swaps(path, **swaps)`: compute the
destination path exactly as files do, `os.makedirs(path, exist_ok=True)`,
then copy every file child, then recurse into every directory child;
an exception propagates, leaving the writes already made in place. -/
def dirMakeCopyWithSwaps (createMode : Nat) (d : PyDirectory) (destDir : String)
    (swaps : List (String × String)) (counts : Counts) (fs : DestFS) :
    Counts × DestFS × Option PyErr :=
  match d with
  | .mk name files children =>
    let path0 := (if endsWithSlash destDir then destDir else destDir ++ "/") ++ name
    match swapInStr path0 swaps counts with
    | (c1, .error e) => (c1, fs, some e)
    | (c1, .ok path) =>
      let fs1 := setNode fs path .dir
      match copyFilesLoop createMode files path swaps c1 fs1 with
      | (c2, fs2, some e) => (c2, fs2, some e)
      | (c2, fs2, none) => copyChildrenLoop createMode children path swaps c2 fs2

/-- `for child in self.children: child.make_copy_with_swaps(path, **swaps)`:
recurse into each directory child in order, stopping at the first raised
exception. -/
def copyChildrenLoop (createMode : Nat) :
    PyDirList → String → List (String × String) → Counts → DestFS →
      Counts × DestFS × Option PyErr
  | .nil, _, _, counts, fs => (counts, fs, none)
  | .cons d rest, path, swaps, counts, fs =>
    match dirMakeCopyWithSwaps createMode d path swaps counts fs with
    | (c1, fs1, some e) => (c1, fs1, some e)
    | (c1, fs1, none) => copyChildrenLoop createMode rest path swaps c1 fs1

end

/-! ## Swap parsing and expansion (`template.py`) and the entry point
(`main.py`) -/

/-- A value held in the keyword dict handed to `Template.__init__`:
a list (already resolved by the CLI layer), a raw string, or `None`
(the default of the `--run` option).  List elements and range elements
are modelled in their `str`-rendered form, which is what `str.format`
interpolates. -/
inductive PyVal where
  | vlist (l : List String)
  | vstr (s : String)
  | vnone
  deriving DecidableEq, Repr

/-- The numeric value of a non-empty all-digit character list. -/
def digitsToNat (ds : List Char) : Option Nat :=
  if ds ≠ [] ∧ ds.all isDigitChar then
    some (ds.foldl (fun n c => n * 10 + (c.toNat - 48)) 0)
  else none

/-- Python `int(s)` on the pieces of a range literal: surrounding spaces
are ignored, an optional sign precedes the digits, anything else is a
`ValueError`. -/
def pyInt (s : String) : Except PyErr Int :=
  let cs := ((s.data.dropWhile (fun c => c = ' ')).reverse.dropWhile
    (fun c => c = ' ')).reverse
  let parsed : Option Int :=
    match cs with
    | '-' :: ds => (digitsToNat ds).map (fun n => -(n : Int))
    | '+' :: ds => (digitsToNat ds).map (fun n => (n : Int))
    | ds => (digitsToNat ds).map (fun n => (n : Int))
  match parsed with
  | some n => .ok n
  | none => .error (.invalidIntLiteral s)

/-- `value.split("-")` on a character list. -/
def splitOnDashAux : List Char → List (List Char)
  | [] => [[]]
  | c :: cs =>
    match splitOnDashAux cs with
    | [] => [[]]
    | h :: t => if c = '-' then [] :: h :: t else (c :: h) :: t

/-- Python `value.split("-")`. -/
def pySplitDash (s : String) : List String :=
  (splitOnDashAux s.data).map (fun cs => String.mk cs)

/-- `list(range(start, end + 1))`, each element rendered with `str`. -/
def pyRangeList (start stop : Int) : List String :=
  (List.range (stop + 1 - start).toNat).map (fun i => toString (start + i))

/-- The per-item body of `Template.parse_swaps`: a list or tuple is kept;
otherwise `"-" in value` — a `TypeError` for `None`, and for a string
either the range expansion `list(range(int(start), int(end) + 1))` of
`start, end = value.split("-")`, or `ValueError(f"Invalid swap value: {value}")`
when no `"-"` occurs. -/
def parseSwapVal (v : PyVal) : Except PyErr (List String) :=
  match v with
  | .vlist l => .ok l
  | .vstr s =>
    if s.data.contains '-' then
      match pySplitDash s with
      | [a, b] => do
        let start ← pyInt a
        let stop ← pyInt b
        return pyRangeList start stop
      | _ => .error (.unpackError s)
    else .error (.invalidSwapValue s)
  | .vnone => .error .typeErrorNoneNotIterable

/-- `Template.parse_swaps(**swaps)`: resolve each value in dict order,
then require `lengths = {len(value) for value in swaps.values()}` to be a
singleton, raising `ValueError("All swaps must have the same number of
elements")` (keys not named) otherwise. -/
def parseSwapsTemplate (swaps : List (String × PyVal)) :
    Except PyErr (List (String × List String)) := do
  let parsed ← swaps.mapM (fun kv => do
    let l ← parseSwapVal kv.2
    return (kv.1, l))
  let lengths := (parsed.map (fun kv => kv.2.length)).dedup
  if 1 < lengths.length then
    throw .swapsLengthMismatch
  else
    return parsed

/-- The substitution map of copy index `i`:
`{swap: self.swaps[swap][i] for swap in self.swaps}` (a list index out of
range would be an `IndexError`, surfaced as `none`). -/
def substMapAt (plan : List (String × List String)) (i : Nat) :
    Option (List (String × String)) :=
  plan.mapM (fun kv => (kv.2.get? i).map (fun v => (kv.1, v)))

/-- The swap-plan expansion at the top of `Template.make_copies`:
`[{swap: self.swaps[swap][i] for swap in self.swaps} for i in range(self.nswaps)]`. -/
def expandSwaps (plan : List (String × List String)) (nswaps : Nat) :
    Option (List (List (String × String))) :=
  (List.range nswaps).mapM (substMapAt plan)

/-- `self.nswaps = len(list(self.swaps.values())[0])` (an `IndexError`
on an empty dict). -/
def nswapsOf (plan : List (String × List String)) : Except PyErr Nat :=
  match plan.head? with
  | none => .error .emptySwapsIndexError
  | some kv => .ok kv.2.length

/-- The mutable state `copies_main` acts on: the logger's swap counter,
the destination filesystem, and the log of substitution maps handed to
the external command collaborator (one entry per command invocation). -/
structure RunState where
  counts : Counts
  fs : DestFS
  cmdLog : List (List (String × String))

/-- The copy loop of `Template.make_copies`: for each substitution map,
`self.directory.make_copy_with_swaps(new_root, **swap)`.  No command is
run anywhere in this loop. -/
def makeCopiesLoop (createMode : Nat) (d : PyDirectory) (newRoot : String) :
    List (List (String × String)) → RunState → RunState × Option PyErr
  | [], st => (st, none)
  | swap :: rest, st =>
    match dirMakeCopyWithSwaps createMode d newRoot swap st.counts st.fs with
    | (c1, fs1, some e) => ({ st with counts := c1, fs := fs1 }, some e)
    | (c1, fs1, none) =>
      makeCopiesLoop createMode d newRoot rest { st with counts := c1, fs := fs1 }

/-- `main.copies_main(args)` for the template-copying mode, after the CLI
layer resolved `args.swaps` to lists:

1. the up-front length check over `args.swaps`, raising
   `ValueError(f"All swaps must have the same number of elements. Got: {length_dict}")`
   — the payload names every key with its observed length — before
   anything touches the filesystem;
2. `Template(args.template, run=args.run, **args.swaps)` —
   `Template.__init__` has no `run` parameter, so `run` lands in the
   `**swaps` dict (first, before the real swaps), the tree is unpacked
   (pure reads), and `Template.parse_swaps` processes that dict;
3. `self.nswaps` from the first value, then `template.make_copies(args.root)`.

The external command collaborator is never invoked on this path
(`template.py` does not import or call `CommandRunner`), so `cmdLog`
is never extended. -/
def copiesMain (createMode : Nat) (tmplTree : SrcListing) (tmplBase : String)
    (run : PyVal) (argsSwaps : List (String × List String)) (root : String)
    (st : RunState) : RunState × Option PyErr :=
  if 1 < ((argsSwaps.map (fun kv => kv.2.length)).dedup).length then
    (st, some (.inconsistentSwapLengths (argsSwaps.map (fun kv => (kv.1, kv.2.length)))))
  else
    let d := unpackDir tmplBase tmplTree
    match parseSwapsTemplate (("run", run) :: argsSwaps.map (fun kv => (kv.1, PyVal.vlist kv.2))) with
    | .error e => (st, some e)
    | .ok plan =>
      match nswapsOf plan with
      | .error e => (st, some e)
      | .ok n =>
        match expandSwaps plan n with
        | none => (st, some .listIndexError)
        | some maps => makeCopiesLoop createMode d root maps st

/-! ## A vocabulary for strings made of literal text and `{name}` tokens

Used to state which substitutions `swap_in_str` performs: a string is
presented as a list of segments, each either literal text or a complete
`{name}` token, rendered by concatenation. -/

/-- A segment of an input string: literal text, or a `{name}` token. -/
inductive Seg where
  | lit (s : String)
  | tok (name : String)

/-- Render a segment list to its character sequence (`{` + name + `}`
for tokens). -/
def renderSegsChars : List Seg → List Char
  | [] => []
  | .lit s :: rest => s.data ++ renderSegsChars rest
  | .tok n :: rest => '{' :: (n.data ++ ('}' :: renderSegsChars rest))

/-- Render a segment list to a string. -/
def renderSegs (l : List Seg) : String := String.mk (renderSegsChars l)

/-- Substitute a segment list: literal text kept, each token replaced by
its value from the swaps mapping. -/
def substSegsChars (swaps : List (String × String)) : List Seg → List Char
  | [] => []
  | .lit s :: rest => s.data ++ substSegsChars swaps rest
  | .tok n :: rest => ((lookupSwap swaps n).getD "").data ++ substSegsChars swaps rest

/-- The substituted segment list as a string. -/
def substSegs (swaps : List (String × String)) (l : List Seg) : String :=
  String.mk (substSegsChars swaps l)

/-- The token names of a segment list, in order, as character lists. -/
def toksChars : List Seg → List (List Char)
  | [] => []
  | .lit _ :: rest => toksChars rest
  | .tok n :: rest => n.data :: toksChars rest

/-! ## Concrete instances used by the claims -/

/-- An all-zero swap counter (a fresh `Logger().swap_counts`). -/
def zeroCounts : Counts := fun _ => 0

/-- A fresh run state: zero counters, empty destination, no commands run. -/
def runState0 : RunState := { counts := zeroCounts, fs := [], cmdLog := [] }

/-- The spec's round-trip example: a text file `greet.txt` with content
`Hello {name}!` whose source permission bits are `0o755`. -/
def greetFile : PyFile :=
  { name := "greet.txt", isLink := false, linkTarget := "",
    isTextDecodable := true, lines := ["Hello {name}!"],
    raw := "Hello {name}!", isExec := false, mode := 0o755 }

/-- An executable, non-text file with source permission bits `0o755`. -/
def execBinFile : PyFile :=
  { name := "run.bin", isLink := false, linkTarget := "",
    isTextDecodable := false, lines := [], raw := "BIN",
    isExec := true, mode := 0o755 }

/-- A symlink named `ln` pointing at `../target`, whose target is a text
file containing the placeholder line `{x}\n` (every content read of a
symlink follows the link). -/
def linkedPlaceholderFile : PyFile :=
  { name := "ln", isLink := true, linkTarget := "../target",
    isTextDecodable := true, lines := ["{x}\n"], raw := "{x}\n",
    isExec := false, mode := 0o644 }

/-- A two-line text file whose first line contains no placeholder. -/
def twoLineFile : PyFile :=
  { name := "two.txt", isLink := false, linkTarget := "",
    isTextDecodable := true, lines := ["hello\n", "{x}\n"],
    raw := "hello\n{x}\n", isExec := false, mode := 0o644 }

/-- A text file containing `{x}`, named `a.txt`. -/
def contentPlaceholderFile : PyFile :=
  { name := "a.txt", isLink := false, linkTarget := "",
    isTextDecodable := true, lines := ["{x}"], raw := "{x}",
    isExec := false, mode := 0o644 }

/-- A text file containing `{x}` whose *name* is the placeholder `{y}`. -/
def namePlaceholderFile : PyFile :=
  { name := "{y}", isLink := false, linkTarget := "",
    isTextDecodable := true, lines := ["{x}"], raw := "{x}",
    isExec := false, mode := 0o644 }

/-- The observed data of a small plain text file `hi\n`. -/
def hiFileData : FileData :=
  { isTextDecodable := true, lines := ["hi\n"], raw := "hi\n",
    isExec := false, mode := 0o644 }

/-- A one-file template listing. -/
def tinyTree : SrcListing :=
  SrcListing.cons (SrcEntry.file "a.txt" hiFileData) SrcListing.nil

/-- A template listing whose sole entry is a symlink resolving to a
directory that contains one regular file. -/
def linkDirTree : SrcListing :=
  SrcListing.cons
    (SrcEntry.linkDir "ln" "../tgt"
      (SrcListing.cons (SrcEntry.file "a.txt" hiFileData) SrcListing.nil))
    SrcListing.nil

/-- The spec's positional-alignment example plan
`{a: [1,2,3], b: [9,8,7]}`. -/
def examplePlan : List (String × List String) :=
  [("a", ["1", "2", "3"]), ("b", ["9", "8", "7"])]

/-! ## Theorems settling the claims -/

/-- Claim C1 (code bug). The spec's round-trip example: copying `greet.txt`
(content `Hello {name}!`, source permission bits `0o755`) with
`{name: "World"}` under a default file-creation mode of `0o644` writes
the correct content `Hello World!`, but the destination's permission
bits are the creation default `0o644`, not the source's `0o755`: the
source's `os.chmod(path, os.stat(path).st_mode)` stats the freshly
written destination (a no-op), not the source, contradicting its own
`# Copy the permissions` comment.  The same happens on the executable
path (`run.bin`, bits `0o755`, copied with bits `0o644`). -/
theorem c1_permission_bits_not_copied :
    (fileMakeCopyWithSwaps 0o644 greetFile "out" [("name", "World")] zeroCounts []).2 =
      ([("out/greet.txt", OutNode.file "Hello World!" 0o644)], none) ∧
    (fileMakeCopyWithSwaps 0o644 execBinFile "out" [] zeroCounts []).2 =
      ([("out/run.bin", OutNode.file "BIN" 0o644)], none) ∧
    greetFile.mode = 0o755 ∧ execBinFile.mode = 0o755 ∧ (0o644 : Nat) ≠ 0o755 := by
  decide

/-- Claim C6 (code bug). A template symlink `ln` pointing at `../target`
whose target is a text file containing `{x}` is *not* recreated as a
symlink: because `get_placeholders` opens `self.path` (following the
link), the file reports placeholders and takes the placeholder-copy
branch, writing a dereferenced, substituted regular file — contradicting
the source's own comment that "inherently a softlink … won't have
placeholders". -/
theorem c6_symlink_dereferenced_at_failing_input :
    linkedPlaceholderFile.isLink = true ∧
    linkedPlaceholderFile.linkTarget = "../target" ∧
    (fileMakeCopyWithSwaps 0o644 linkedPlaceholderFile "out" [("x", "1")] zeroCounts []).2 =
      ([("out/ln", OutNode.file "1\n" 0o644)], none) := by
  decide

/-- Claim C7 (code bug). For a text file whose first line `hello\n`
contains no placeholder, discovery still records line index 0:
`pattern.findall(line)` returns a list, never `None`, so the source's
`if matches is not None:` guard is always true and *every* line index is
recorded, contradicting the guard's own `# If we have matches...`
comment (the union of matched names is still correct). -/
theorem c7_all_line_indices_recorded :
    placeHolderLines twoLineFile = [0, 1] ∧
    findPlaceholders "hello\n" = [] ∧
    placeholdersOf twoLineFile = ["x"] := by
  decide

/-- Claim C8 (code bug). With a run-command configured (`run="echo done"`)
and a valid one-copy plan `{a: ["1"]}`, `copies_main` passes
`run=args.run` to `Template.__init__`, which has no `run` parameter — the
command string lands in the `**swaps` dict, and `Template.parse_swaps`
raises `ValueError("Invalid swap value: echo done")` before any copy is
made; no substitution map is ever handed to the external command
collaborator (the copy loop in `Template.make_copies` contains no command
invocation at all, despite `Template`'s docstring promising to run
"any commands that need to be executed"). -/
theorem c8_run_command_never_invoked :
    (copiesMain 0o644 tinyTree "tmpl" (.vstr "echo done") [("a", ["1"])] "out" runState0).2 =
      some (PyErr.invalidSwapValue "echo done") ∧
    (copiesMain 0o644 tinyTree "tmpl" (.vstr "echo done") [("a", ["1"])] "out" runState0).1.fs = [] ∧
    (copiesMain 0o644 tinyTree "tmpl" (.vstr "echo done") [("a", ["1"])] "out" runState0).1.cmdLog = [] := by
  decide

/-- Claim C9 (confirmed). `os.path.isdir` follows symlinks, so tree
discovery treats a symlink resolving to a directory exactly like an
ordinary directory with the same listing (first conjunct), and therefore
the whole copy operation behaves identically on the two (third
conjunct) — producing a real directory (`os.makedirs`) holding a
recursive copy of the link target's contents, never a symlink, as the
concrete evaluation in the last conjunct shows.  A symlink whose target
does not exist satisfies neither `os.path.isdir` nor `os.path.isfile`
and is silently excluded from the tree (second conjunct), hence never
copied. -/
theorem c9_symlink_dir_treated_as_directory :
    (∀ (n t : String) (es rest : SrcListing),
        unpackEntries (SrcListing.cons (SrcEntry.linkDir n t es) rest) =
          unpackEntries (SrcListing.cons (SrcEntry.dir n es) rest)) ∧
    (∀ (n t : String) (rest : SrcListing),
        unpackEntries (SrcListing.cons (SrcEntry.broken n t) rest) =
          unpackEntries rest) ∧
    (∀ (cm : Nat) (base n t : String) (es rest : SrcListing) (destDir : String)
        (swaps : List (String × String)) (counts : Counts) (fs : DestFS),
        dirMakeCopyWithSwaps cm
            (unpackDir base (SrcListing.cons (SrcEntry.linkDir n t es) rest))
            destDir swaps counts fs =
          dirMakeCopyWithSwaps cm
            (unpackDir base (SrcListing.cons (SrcEntry.dir n es) rest))
            destDir swaps counts fs) ∧
    (dirMakeCopyWithSwaps 0o644 (unpackDir "tmpl" linkDirTree) "out" [] zeroCounts []).2 =
      ([("out/tmpl/ln/a.txt", OutNode.file "hi\n" 0o644),
        ("out/tmpl/ln", OutNode.dir), ("out/tmpl", OutNode.dir)], none) := by
  refine ⟨fun n t es rest => rfl, fun n t rest => rfl, fun _ _ n t es rest _ _ _ _ => rfl, ?_⟩
  decide

/-- Lists of length at most one have all members equal. -/
theorem all_eq_of_length_le_one {α : Type} {l : List α} (h : l.length ≤ 1) :
    ∀ a ∈ l, ∀ b ∈ l, a = b := by
  match l with
  | [] => intro a ha; exact absurd ha (List.not_mem_nil a)
  | [x] =>
    intro a ha b hb
    rw [List.mem_singleton] at ha hb
    rw [ha, hb]
  | x :: y :: rest => simp at h

/-- Two distinct members force the deduplicated list past length one. -/
theorem one_lt_dedup_length {α : Type} [DecidableEq α] {l : List α} {a b : α}
    (ha : a ∈ l) (hb : b ∈ l) (hab : a ≠ b) : 1 < l.dedup.length := by
  by_contra h
  push_neg at h
  exact hab (all_eq_of_length_le_one h a (List.mem_dedup.mpr ha) b (List.mem_dedup.mpr hb))

/-- Claim C4 (confirmed). If two value sequences of the swap plan have
different lengths, `copies_main` raises
`ValueError("All swaps must have the same number of elements. Got: {length_dict}")`
— whose payload pairs every key with its observed length — as its very
first step: the run state (destination filesystem, counters, command
log) is returned untouched, so no filesystem write has occurred. -/
theorem c4_unequal_length_rejection (cm : Nat) (tree : SrcListing) (base : String)
    (run : PyVal) (argsSwaps : List (String × List String)) (root : String)
    (st : RunState) (kv1 kv2 : String × List String)
    (h1 : kv1 ∈ argsSwaps) (h2 : kv2 ∈ argsSwaps)
    (hne : kv1.2.length ≠ kv2.2.length) :
    copiesMain cm tree base run argsSwaps root st =
      (st, some (PyErr.inconsistentSwapLengths
        (argsSwaps.map (fun kv => (kv.1, kv.2.length))))) := by
  have ha : kv1.2.length ∈ argsSwaps.map (fun kv => kv.2.length) :=
    List.mem_map_of_mem _ h1
  have hb : kv2.2.length ∈ argsSwaps.map (fun kv => kv.2.length) :=
    List.mem_map_of_mem _ h2
  have hgt : 1 < ((argsSwaps.map (fun kv => kv.2.length)).dedup).length :=
    one_lt_dedup_length ha hb hne
  unfold copiesMain
  rw [if_pos hgt]

/-- Witness for `c4_unequal_length_rejection`: the spec's example plan
`{a: [1,2], b: [1,2,3]}` is rejected up front with both keys and their
lengths in the payload, and an untouched run state. -/
theorem c4_unequal_length_rejection_witness :
    copiesMain 0o644 tinyTree "tmpl" PyVal.vnone [("a", ["1", "2"]), ("b", ["1", "2", "3"])]
        "out" runState0 =
      (runState0, some (PyErr.inconsistentSwapLengths [("a", 2), ("b", 3)])) :=
  c4_unequal_length_rejection 0o644 tinyTree "tmpl" PyVal.vnone
    [("a", ["1", "2"]), ("b", ["1", "2", "3"])] "out" runState0
    ("a", ["1", "2"]) ("b", ["1", "2", "3"]) (by decide) (by decide) (by decide)

/-- `mapM` over `Option` succeeds pointwise. -/
theorem mapM_option_some {α β : Type} (f : α → Option β) (g : α → β) (l : List α)
    (h : ∀ a ∈ l, f a = some (g a)) : l.mapM f = some (l.map g) := by
  induction l with
  | nil => rfl
  | cons a l ih =>
    rw [List.mapM_cons, h a (List.mem_cons_self a l),
      ih (fun x hx => h x (List.mem_cons_of_mem a hx))]
    rfl

/-- On an equal-length plan, the substitution map of an in-range index
exists and pairs each key with the i-th element of its sequence. -/
theorem substMapAt_eq (plan : List (String × List String)) (i N : Nat)
    (hlen : ∀ kv ∈ plan, kv.2.length = N) (hi : i < N) :
    substMapAt plan i = some (plan.map (fun kv => (kv.1, kv.2.getD i ""))) := by
  apply mapM_option_some
  intro kv hkv
  have hl : i < kv.2.length := by rw [hlen kv hkv]; exact hi
  rw [List.getD_eq_get? kv.2 i "", List.get?_eq_get hl]
  rfl

/-- Claim C3 (confirmed). For a non-empty plan whose value sequences all
have length `N`, `Template.make_copies` derives `nswaps = N` from the
first sequence and expands the plan into exactly `N` substitution maps
in index order, map `i` pairing every key with the `i`-th element of its
sequence — positional alignment, never a cross product. -/
theorem c3_positional_alignment (plan : List (String × List String)) (N : Nat)
    (hne : plan ≠ []) (hlen : ∀ kv ∈ plan, kv.2.length = N) :
    nswapsOf plan = .ok N ∧
    ∃ maps, expandSwaps plan N = some maps ∧ maps.length = N ∧
      ∀ i, i < N →
        maps.get? i = some (plan.map (fun kv => (kv.1, kv.2.getD i ""))) := by
  constructor
  · match plan, hne with
    | kv :: rest, _ =>
      have : kv.2.length = N := hlen kv (List.mem_cons_self kv rest)
      simp [nswapsOf, this]
  · refine ⟨(List.range N).map (fun i => plan.map (fun kv => (kv.1, kv.2.getD i ""))),
      ?_, ?_, ?_⟩
    · exact mapM_option_some _ _ _
        (fun i hi => substMapAt_eq plan i N hlen (List.mem_range.mp hi))
    · simp
    · intro i hi
      rw [List.get?_map, List.get?_range hi]
      rfl

/-- Witness for `c3_positional_alignment`: the spec's example
`{a: [1,2,3], b: [9,8,7]}` expands to
`[{a:1,b:9}, {a:2,b:8}, {a:3,b:7}]` in that exact order. -/
theorem c3_positional_alignment_witness :
    expandSwaps examplePlan 3 =
      some [[("a", "1"), ("b", "9")], [("a", "2"), ("b", "8")], [("a", "3"), ("b", "7")]] ∧
    (nswapsOf examplePlan = .ok 3 ∧
      ∃ maps, expandSwaps examplePlan 3 = some maps ∧ maps.length = 3 ∧
        ∀ i, i < 3 →
          maps.get? i = some (examplePlan.map (fun kv => (kv.1, kv.2.getD i "")))) :=
  ⟨by decide, c3_positional_alignment examplePlan 3 (by decide) (by decide)⟩

/-- Evaluating a counter bump over a duplicate-free name list: each
listed name is up by one, everything else unchanged. -/
theorem bumpCounts_eval : ∀ (names : List String) (counts : Counts),
    names.Nodup → ∀ n,
    bumpCounts counts names n = counts n + (if n ∈ names then 1 else 0)
  | [], counts, _, n => by simp [bumpCounts]
  | a :: l, counts, hnd, n => by
    have hal : a ∉ l := (List.nodup_cons.mp hnd).1
    have hl : l.Nodup := (List.nodup_cons.mp hnd).2
    have step : bumpCounts counts (a :: l) =
        bumpCounts (fun k => if k = a then counts k + 1 else counts k) l := rfl
    rw [step, bumpCounts_eval l _ hl n]
    by_cases hna : n = a
    · subst hna
      simp [hal]
    · simp [hna, List.mem_cons]

/-- Both branches of `swap_in_str` return the counter with every distinct
found name bumped: the increments happen before the missing-swaps check. -/
theorem swapInStr_counts (s : String) (swaps : List (String × String))
    (counts : Counts) :
    (swapInStr s swaps counts).1 = bumpCounts counts (findPlaceholders s).dedup := by
  unfold swapInStr
  dsimp only
  split <;> rfl

/-- When some found name has no swap, `swap_in_str` raises
`ValueError(f"Missing swaps: {missing_swaps}")` carrying those names. -/
theorem swapInStr_missing_error (s : String) (swaps : List (String × String))
    (counts : Counts) (h : missingNames s swaps ≠ []) :
    (swapInStr s swaps counts).2 = .error (.missingSwaps (missingNames s swaps)) := by
  unfold missingNames at h ⊢
  unfold swapInStr
  rw [if_pos h]

/-- Claim C10 (confirmed). `swap_in_str` increments the process-wide swap
counter once for each distinct placeholder name found in the string —
including the missing ones, which are a subset of the found ones — and
only then performs the missing-swaps check, so when the call raises the
missing-swaps error the returned counter already carries the increments. -/
theorem c10_swap_counter_incremented_before_missing_check
    (s : String) (swaps : List (String × String)) (counts : Counts) :
    (∀ n, (swapInStr s swaps counts).1 n =
        counts n + (if n ∈ (findPlaceholders s).dedup then 1 else 0)) ∧
    (∀ n, n ∈ missingNames s swaps → n ∈ (findPlaceholders s).dedup) ∧
    (missingNames s swaps ≠ [] →
      (swapInStr s swaps counts).2 =
        .error (.missingSwaps (missingNames s swaps))) := by
  refine ⟨?_, ?_, swapInStr_missing_error s swaps counts⟩
  · intro n
    rw [swapInStr_counts]
    exact bumpCounts_eval _ _ (List.nodup_dedup _) n
  · intro n hn
    exact List.mem_of_mem_filter hn

/-- Witness for `c10_swap_counter_incremented_before_missing_check`:
`swap_in_str("{a}{b}", a="1")` raises for the missing `b`, yet both `a`'s
and `b`'s counters are already incremented. -/
theorem c10_swap_counter_witness :
    (swapInStr "{a}{b}" [("a", "1")] zeroCounts).1 "a" = 1 ∧
    (swapInStr "{a}{b}" [("a", "1")] zeroCounts).1 "b" = 1 ∧
    (swapInStr "{a}{b}" [("a", "1")] zeroCounts).2 =
      .error (.missingSwaps ["b"]) := by
  have h := c10_swap_counter_incremented_before_missing_check "{a}{b}" [("a", "1")] zeroCounts
  refine ⟨?_, ?_, ?_⟩
  · rw [h.1 "a"]; decide
  · rw [h.1 "b"]; decide
  · have h3 := h.2.2 (by decide)
    rw [(by decide : missingNames "{a}{b}" [("a", "1")] = ["b"])] at h3
    exact h3

/-- Claim C2 (counterexample). A node whose *content* placeholder `x` is
missing but whose *name* is itself the placeholder `{y}`: the missing
names of the discovered (content) placeholder set are `["x"]`, yet the
raised error is the destination-name substitution's
`ValueError("Missing swaps: {'y'}")`, which does not list `x` — so the
claim that the raised error lists the missing names of the discovered
set is false (no destination file is produced, though). -/
theorem c2_error_payload_counterexample :
    missingPlaceholderNames namePlaceholderFile [] = ["x"] ∧
    (fileMakeCopyWithSwaps 0o644 namePlaceholderFile "out" [] zeroCounts []).2 =
      ([], some (PyErr.missingSwaps ["y"])) ∧
    ("x" : String) ∉ (["y"] : List String) := by
  decide

/-- Claim C2 (amended, proved). If a node's discovered placeholder set has
a name absent from the substitution map, `make_copy_with_swaps` raises an
error and the destination filesystem is returned exactly as it was — no
byte of that node's output is written.  Moreover, whenever the
destination-name substitution itself returns normally, the raised error
is precisely `ValueError(f"Missing placeholders: {missing}")` carrying
the missing names of the discovered set. -/
theorem c2_missing_placeholder_amended (cm : Nat) (f : PyFile) (destDir : String)
    (swaps : List (String × String)) (counts : Counts) (fs : DestFS)
    (hmiss : missingPlaceholderNames f swaps ≠ []) :
    (∃ c1 e, fileMakeCopyWithSwaps cm f destDir swaps counts fs = (c1, fs, some e)) ∧
    (∀ c1 p,
      swapInStr ((if endsWithSlash destDir then destDir else destDir ++ "/") ++ f.name)
          swaps counts = (c1, .ok p) →
      fileMakeCopyWithSwaps cm f destDir swaps counts fs =
        (c1, fs, some (PyErr.missingPlaceholders (missingPlaceholderNames f swaps)))) := by
  have hpl : ¬ placeholdersOf f = [] := by
    intro h0
    apply hmiss
    unfold missingPlaceholderNames
    rw [h0]
    rfl
  have hhp : hasPlaceholders f = true := decide_eq_true hpl
  have key : ∀ c1 p,
      swapInStr ((if endsWithSlash destDir then destDir else destDir ++ "/") ++ f.name)
          swaps counts = (c1, .ok p) →
      fileMakeCopyWithSwaps cm f destDir swaps counts fs =
        (c1, fs, some (PyErr.missingPlaceholders (missingPlaceholderNames f swaps))) := by
    intro c1 p heq
    unfold fileMakeCopyWithSwaps
    dsimp only
    rw [heq, hhp]
    dsimp only
    unfold makeCopyWithPlaceholders
    dsimp only
    rw [if_pos hmiss]
    rfl
  refine ⟨?_, key⟩
  rcases hsw : swapInStr ((if endsWithSlash destDir then destDir else destDir ++ "/") ++ f.name)
      swaps counts with ⟨c1, r⟩
  cases r with
  | error e =>
    refine ⟨c1, e, ?_⟩
    unfold fileMakeCopyWithSwaps
    dsimp only
    rw [hsw]
  | ok p =>
    exact ⟨c1, PyErr.missingPlaceholders (missingPlaceholderNames f swaps), key c1 p hsw⟩

/-- Witness for `c2_missing_placeholder_amended`: a file containing `{x}`
copied with an empty substitution map raises
`ValueError("Missing placeholders: {'x'}")` and writes nothing. -/
theorem c2_missing_placeholder_amended_witness :
    (fileMakeCopyWithSwaps 0o644 contentPlaceholderFile "out" [] zeroCounts []).2 =
      ([], some (PyErr.missingPlaceholders ["x"])) ∧
    ((∃ c1 e, fileMakeCopyWithSwaps 0o644 contentPlaceholderFile "out" [] zeroCounts [] =
        (c1, [], some e)) ∧
      (∀ c1 p,
        swapInStr ((if endsWithSlash "out" then "out" else "out" ++ "/") ++
            contentPlaceholderFile.name) [] zeroCounts = (c1, .ok p) →
        fileMakeCopyWithSwaps 0o644 contentPlaceholderFile "out" [] zeroCounts [] =
          (c1, [], some (PyErr.missingPlaceholders
            (missingPlaceholderNames contentPlaceholderFile []))))) :=
  ⟨by decide,
    c2_missing_placeholder_amended 0o644 contentPlaceholderFile "out" [] zeroCounts []
      (by decide)⟩

/-- Rebuilding a string from its characters is the identity. -/
theorem string_mk_data (s : String) : String.mk s.data = s := rfl

/-- A word character is not `{`. -/
theorem wordChar_ne_open {c : Char} (h : isWordChar c = true) : c ≠ '{' := by
  intro heq
  subst heq
  exact absurd h (by decide)

/-- A word character is not `}`. -/
theorem wordChar_ne_close {c : Char} (h : isWordChar c = true) : c ≠ '}' := by
  intro heq
  subst heq
  exact absurd h (by decide)

/-- The regex scan passes over any prefix containing no `{`: a match can
only start at a `{`. -/
theorem findPHAux_none_append (s t : List Char) (h : ∀ c ∈ s, c ≠ '{') :
    findPHAux none (s ++ t) = findPHAux none t := by
  induction s with
  | nil => rfl
  | cons c s ih =>
    have hc : ¬ c = '{' := h c (List.mem_cons_self c s)
    simp only [List.cons_append, findPHAux]
    rw [if_neg hc]
    exact ih (fun x hx => h x (List.mem_cons_of_mem c hx))

/-- Inside a candidate match, a run of word characters followed by `}`
closes the capture: the accumulated buffer plus the run is emitted. -/
theorem findPHAux_field (m : List Char) (hm : m.all isWordChar) :
    ∀ (buf t : List Char), buf ≠ [] ∨ m ≠ [] →
    findPHAux (some buf) (m ++ '}' :: t) =
      (buf.reverse ++ m) :: findPHAux none t := by
  induction m with
  | nil =>
    intro buf t hne
    have hbuf : ¬ buf = [] := by
      rcases hne with h | h
      · exact h
      · exact absurd rfl h
    simp only [List.nil_append, findPHAux]
    rw [if_pos trivial, if_neg hbuf, List.append_nil]
  | cons c m ih =>
    intro buf t _
    obtain ⟨hc, hm'⟩ : isWordChar c = true ∧ m.all isWordChar = true := by
      simpa using hm
    simp only [List.cons_append, findPHAux, List.append_eq]
    rw [if_neg (wordChar_ne_close hc), if_neg (wordChar_ne_open hc), if_pos hc,
      ih hm' (c :: buf) t (Or.inl (List.cons_ne_nil c buf))]
    congr 1
    simp

/-- The regex scan captures a complete `{name}` token at the head. -/
theorem findPHAux_token (n t : List Char) (hn : n ≠ []) (hw : n.all isWordChar) :
    findPHAux none ('{' :: (n ++ '}' :: t)) = n :: findPHAux none t := by
  simp only [findPHAux]
  rw [if_pos trivial, findPHAux_field n hw [] t (Or.inr hn)]
  rfl

/-- The names of the tokens of a segment list. -/
theorem toksChars_mem : ∀ (segs : List Seg) {cs : List Char},
    cs ∈ toksChars segs → ∃ nm, Seg.tok nm ∈ segs ∧ cs = nm.data
  | [], cs, h => absurd h (List.not_mem_nil cs)
  | .lit _ :: rest, _, h => by
    obtain ⟨nm, hmem, hcs⟩ := toksChars_mem rest h
    exact ⟨nm, List.mem_cons_of_mem _ hmem, hcs⟩
  | .tok n :: rest, _, h => by
    rcases List.mem_cons.mp h with h1 | h2
    · exact ⟨n, List.mem_cons_self _ _, h1⟩
    · obtain ⟨nm, hmem, hcs⟩ := toksChars_mem rest h2
      exact ⟨nm, List.mem_cons_of_mem _ hmem, hcs⟩

/-- The regex scan of a rendered segment list finds exactly the token
names, in order. -/
theorem findPH_renderSegs : ∀ (segs : List Seg),
    (∀ s, Seg.lit s ∈ segs → ∀ c ∈ s.data, c ≠ '{') →
    (∀ nm, Seg.tok nm ∈ segs → nm.data ≠ [] ∧ nm.data.all isWordChar) →
    findPHAux none (renderSegsChars segs) = toksChars segs
  | [], _, _ => rfl
  | .lit s :: rest, hlit, htok => by
    rw [renderSegsChars,
      findPHAux_none_append s.data _ (hlit s (List.mem_cons_self _ _))]
    exact findPH_renderSegs rest
      (fun x hx => hlit x (List.mem_cons_of_mem _ hx))
      (fun x hx => htok x (List.mem_cons_of_mem _ hx))
  | .tok n :: rest, hlit, htok => by
    have hn := htok n (List.mem_cons_self _ _)
    rw [renderSegsChars, findPHAux_token n.data _ hn.1 hn.2]
    rw [findPH_renderSegs rest
      (fun x hx => hlit x (List.mem_cons_of_mem _ hx))
      (fun x hx => htok x (List.mem_cons_of_mem _ hx))]
    rfl

/-- `str.format` copies a brace-free prefix verbatim. -/
theorem pyFormatAux_lit_append (lookup : String → Option String)
    (s t : List Char) (h : ∀ c ∈ s, c ≠ '{' ∧ c ≠ '}') :
    pyFormatAux lookup .lit (s ++ t) =
      (pyFormatAux lookup .lit t).map (fun r => s ++ r) := by
  induction s with
  | nil =>
    rw [List.nil_append]
    cases h2 : pyFormatAux lookup FmtState.lit t <;> simp [Except.map]
  | cons c s ih =>
    have hc := h c (List.mem_cons_self c s)
    simp only [List.cons_append, pyFormatAux, List.append_eq]
    rw [if_neg hc.1, if_neg hc.2,
      ih (fun x hx => h x (List.mem_cons_of_mem c hx))]
    cases h2 : pyFormatAux lookup FmtState.lit t <;> simp [Except.map]

/-- `str.format` inside a replacement field: a run of word characters
followed by `}` resolves the accumulated field. -/
theorem pyFormatAux_field_run (lookup : String → Option String)
    (m : List Char) (hm : m.all isWordChar) :
    ∀ (buf t : List Char),
    pyFormatAux lookup (.field buf) (m ++ '}' :: t) =
      match formatField (buf.reverse ++ m) lookup with
      | .error e => .error e
      | .ok v => (pyFormatAux lookup .lit t).map (fun r => v ++ r) := by
  induction m with
  | nil =>
    intro buf t
    simp only [List.nil_append, pyFormatAux]
    rw [if_pos trivial, List.append_nil]
  | cons c m ih =>
    intro buf t
    obtain ⟨hc, hm'⟩ : isWordChar c = true ∧ m.all isWordChar = true := by
      simpa using hm
    simp only [List.cons_append, pyFormatAux, List.append_eq]
    rw [if_neg (wordChar_ne_close hc), ih hm' (c :: buf) t]
    have : (c :: buf).reverse ++ m = buf.reverse ++ (c :: m) := by simp
    rw [this]

/-- `str.format` substitutes a complete `{name}` field at the head when
the field resolves. -/
theorem pyFormatAux_token (lookup : String → Option String)
    (n t : List Char) (v : List Char)
    (hn : n ≠ []) (hw : n.all isWordChar)
    (hfield : formatField n lookup = .ok v) :
    pyFormatAux lookup .lit ('{' :: (n ++ '}' :: t)) =
      (pyFormatAux lookup .lit t).map (fun r => v ++ r) := by
  match n, hn with
  | c :: n', _ =>
    obtain ⟨hc, hn'⟩ : isWordChar c = true ∧ n'.all isWordChar = true := by
      simpa using hw
    simp only [List.cons_append, pyFormatAux, List.append_eq]
    rw [if_pos trivial, if_neg (wordChar_ne_open hc), if_neg (wordChar_ne_close hc),
      pyFormatAux_field_run lookup n' hn' [c] t]
    have h5 : ([c].reverse ++ n' : List Char) = c :: n' := by simp
    rw [h5, hfield]

/-- A successful keyword lookup means the name is among the keys. -/
theorem isSwapKey_of_lookup : ∀ (swaps : List (String × String)) {n : String},
    (lookupSwap swaps n).isSome → isSwapKey swaps n = true
  | [], n, h => by simp [lookupSwap, List.lookup] at h
  | kv :: rest, n, h => by
    by_cases hk : n == kv.1
    · simp [isSwapKey, List.contains_cons, hk]
    · have hk' : (n == kv.1) = false := by simpa using hk
      have h' : (lookupSwap rest n).isSome := by
        unfold lookupSwap List.lookup at h
        simp only [hk'] at h
        exact h
      have hrest := isSwapKey_of_lookup rest h'
      unfold isSwapKey at hrest ⊢
      simp only [List.map_cons, List.contains_cons, hk', Bool.false_or]
      exact hrest

/-- `str.format` of a rendered segment list whose tokens all resolve:
literal text is kept, each token is replaced by its value. -/
theorem pyFormat_renderSegs (swaps : List (String × String)) :
    ∀ (segs : List Seg),
    (∀ s, Seg.lit s ∈ segs → ∀ c ∈ s.data, c ≠ '{' ∧ c ≠ '}') →
    (∀ nm, Seg.tok nm ∈ segs → nm.data ≠ [] ∧ nm.data.all isWordChar ∧
        ¬ nm.data.all isDigitChar ∧ (lookupSwap swaps nm).isSome) →
    pyFormatAux (lookupSwap swaps) .lit (renderSegsChars segs) =
      .ok (substSegsChars swaps segs)
  | [], _, _ => rfl
  | .lit s :: rest, hlit, htok => by
    rw [renderSegsChars,
      pyFormatAux_lit_append _ s.data _ (hlit s (List.mem_cons_self _ _)),
      pyFormat_renderSegs swaps rest
        (fun x hx => hlit x (List.mem_cons_of_mem _ hx))
        (fun x hx => htok x (List.mem_cons_of_mem _ hx))]
    rfl
  | .tok n :: rest, hlit, htok => by
    obtain ⟨h1, h2, h3, h4⟩ := htok n (List.mem_cons_self _ _)
    obtain ⟨v, hv⟩ := Option.isSome_iff_exists.mp h4
    have hfield : formatField n.data (lookupSwap swaps) = .ok v.data := by
      unfold formatField
      rw [if_neg h1, if_neg (by simpa using h3), if_pos h2, string_mk_data, hv]
    rw [renderSegsChars, pyFormatAux_token _ n.data _ v.data h1 h2 hfield,
      pyFormat_renderSegs swaps rest
        (fun x hx => hlit x (List.mem_cons_of_mem _ hx))
        (fun x hx => htok x (List.mem_cons_of_mem _ hx))]
    simp [substSegsChars, hv, Except.map]

/-- Claim C5 (counterexample). `swap_in_str` ends with `string.format`,
which raises on any brace not forming a complete replacement field —
`"a{ b"` (stray `{`) and `"}x"` (stray `}`) are not passed through
untouched but raise `ValueError`s — and an all-digit token such as
`{0}` is a positional field, raising `IndexError` even when the name
`0` is a key of the map, instead of being replaced. -/
theorem c5_stray_brace_counterexample :
    (swapInStr "a\x7b b" [] zeroCounts).2 = .error .formatSingleOpenBrace ∧
    (swapInStr "\x7dx" [] zeroCounts).2 = .error .formatSingleCloseBrace ∧
    (swapInStr "{0}" [("0", "v")] zeroCounts).2 =
      .error (.formatIndexError ['0']) :=
  ⟨rfl, rfl, rfl⟩

/-- Claim C5 (amended, proved). For an input string assembled from
brace-free literal segments and complete `{name}` tokens whose names are
non-empty word-character strings, not composed solely of digits, and all
keys of the substitution map, `swap_in_str` returns the string with
exactly the tokens replaced by their values and every literal segment
untouched.  (Inputs with a stray brace or an all-digit token instead
raise, per `c5_stray_brace_counterexample`.) -/
theorem c5_substitution_amended (segs : List Seg)
    (swaps : List (String × String)) (counts : Counts)
    (hlit : ∀ s, Seg.lit s ∈ segs → ∀ c ∈ s.data, c ≠ '{' ∧ c ≠ '}')
    (htok : ∀ nm, Seg.tok nm ∈ segs → nm.data ≠ [] ∧ nm.data.all isWordChar ∧
        ¬ nm.data.all isDigitChar ∧ (lookupSwap swaps nm).isSome) :
    (swapInStr (renderSegs segs) swaps counts).2 = .ok (substSegs swaps segs) := by
  have hfound : findPlaceholders (renderSegs segs) =
      (toksChars segs).map (fun cs => String.mk cs) := by
    unfold findPlaceholders renderSegs findPH
    rw [findPH_renderSegs segs (fun s hs c hc => (hlit s hs c hc).1)
      (fun nm hnm => ⟨(htok nm hnm).1, (htok nm hnm).2.1⟩)]
  have hmiss : ((findPlaceholders (renderSegs segs)).dedup.filter
      (fun n => ¬ isSwapKey swaps n)) = [] := by
    rw [hfound]
    apply List.filter_eq_nil.mpr
    intro a ha
    rw [List.mem_dedup, List.mem_map] at ha
    obtain ⟨cs, hcs, rfl⟩ := ha
    obtain ⟨nm, hnm, rfl⟩ := toksChars_mem segs hcs
    rw [string_mk_data]
    simp [isSwapKey_of_lookup swaps (htok nm hnm).2.2.2]
  unfold swapInStr
  dsimp only
  rw [hmiss, if_neg (fun h => h rfl)]
  unfold pyFormatStr pyFormat
  rw [show (renderSegs segs).data = renderSegsChars segs from rfl,
    pyFormat_renderSegs swaps segs hlit htok]
  rfl

/-- Witness for `c5_substitution_amended`: `"pre {a} mid {b} post"` with
`{a: "1", b: "2"}` becomes `"pre 1 mid 2 post"`. -/
theorem c5_substitution_amended_witness :
    renderSegs [Seg.lit "pre ", Seg.tok "a", Seg.lit " mid ", Seg.tok "b",
        Seg.lit " post"] = "pre {a} mid {b} post" ∧
    substSegs [("a", "1"), ("b", "2")]
        [Seg.lit "pre ", Seg.tok "a", Seg.lit " mid ", Seg.tok "b",
          Seg.lit " post"] = "pre 1 mid 2 post" ∧
    (swapInStr (renderSegs [Seg.lit "pre ", Seg.tok "a", Seg.lit " mid ",
        Seg.tok "b", Seg.lit " post"]) [("a", "1"), ("b", "2")] zeroCounts).2 =
      .ok (substSegs [("a", "1"), ("b", "2")]
        [Seg.lit "pre ", Seg.tok "a", Seg.lit " mid ", Seg.tok "b",
          Seg.lit " post"]) :=
  ⟨by decide, by decide,
    c5_substitution_amended _ [("a", "1"), ("b", "2")] zeroCounts
      (by
        intro s hs
        simp at hs
        rcases hs with rfl | rfl | rfl <;> decide)
      (by
        intro nm hnm
        simp at hnm
        rcases hnm with rfl | rfl <;> decide)⟩

end DirWand
